import Mathlib

/-!
Verification of the tariff-resolution core of `pvoutput-tariff`.

The definitions below are a shallow embedding of `src/uploader.py`
(`is_time_in_period`, `is_public_holiday`, `get_current_tariff`) and of the
seasonal-field validation in `src/config_schema.py`
(`_validate_single_tariff`).  Python dictionaries are modelled as
insertion-ordered association lists, Python `datetime.time` / `date` values
as structures of naturals compared lexicographically (exactly the tuple
comparison Python uses), prices as rationals (the code performs no
arithmetic on prices beyond `float(...)` of a configuration number), and the
external `holidays` package as an oracle parameter.
-/

namespace PVOutputTariff

/-- Wall-clock time of day at minute resolution: the `hour` and `minute`
fields of the Python `datetime.time` values the code manipulates. -/
structure Time where
  hour : Nat
  minute : Nat
deriving DecidableEq, Repr

/-- Python `time` objects compare lexicographically on (hour, minute);
the code only ever builds times with zero seconds/microseconds. -/
def Time.le (a b : Time) : Bool :=
  decide (a.hour < b.hour) || (decide (a.hour = b.hour) && decide (a.minute ≤ b.minute))

/-- Minutes since midnight. -/
def Time.toMinutes (t : Time) : Nat := t.hour * 60 + t.minute

/-- A well-formed clock time as `datetime.time` would accept it. -/
def Time.valid (t : Time) : Prop := t.hour < 24 ∧ t.minute < 60

instance (t : Time) : Decidable t.valid := by
  unfold Time.valid
  exact inferInstance

/-- Python `s.split(sep)` for a one-character separator, on the character
list of the string (structural recursion, so concrete instances reduce). -/
def splitOnChar (c : Char) : List Char → List (List Char)
  | [] => [[]]
  | x :: xs =>
    match splitOnChar c xs with
    | [] => [[x]]
    | r :: rs => if x = c then [] :: r :: rs else (x :: r) :: rs

/-- Python `int(s)` on an unsigned decimal string: every character a digit,
at least one character. -/
def natFromChars? (cs : List Char) : Option Nat :=
  if cs.isEmpty then none
  else if cs.all (fun ch => 48 ≤ ch.toNat && ch.toNat ≤ 57) then
    some (cs.foldl (fun n ch => n * 10 + (ch.toNat - 48)) 0)
  else none

/-- Python `int(s)` with an optional leading sign. -/
def intFromChars? (cs : List Char) : Option Int :=
  match cs with
  | '-' :: rest => (natFromChars? rest).map (fun n => -(n : Int))
  | '+' :: rest => (natFromChars? rest).map (fun n => (n : Int))
  | _ => (natFromChars? cs).map (fun n => (n : Int))

/-- Model of the parsing inside `is_time_in_period`:
`parts = list(map(int, s.split(":")))` followed by `time(parts[0], parts[1])`.
The model is total: on strings outside the validated `HH:MM` shape, where
the Python code would raise, missing or non-numeric components default
to 0. -/
def parseTime (s : String) : Time :=
  let parts := (splitOnChar ':' s.data).map (fun p => (natFromChars? p).getD 0)
  ⟨parts.getD 0 0, parts.getD 1 0⟩

/-- `is_time_in_period` from `src/uploader.py`: is `current_time` inside the
window `[start_str, end_str]`, treating `start > end` as an overnight window. -/
def is_time_in_period (current_time : Time) (start_str end_str : String) : Bool :=
  let start_time := parseTime start_str
  let end_time := parseTime end_str
  if start_time.le end_time then
    start_time.le current_time && current_time.le end_time
  else
    start_time.le current_time || current_time.le end_time

/-- Calendar date, mirroring Python `datetime.date` (proleptic Gregorian). -/
structure Date where
  year : Nat
  month : Nat
  day : Nat
deriving DecidableEq, Repr

/-- Python `date` objects compare lexicographically on (year, month, day). -/
def Date.le (a b : Date) : Bool :=
  decide (a.year < b.year) ||
    (decide (a.year = b.year) &&
      (decide (a.month < b.month) ||
        (decide (a.month = b.month) && decide (a.day ≤ b.day))))

/-- Strict version of `Date.le`. -/
def Date.lt (a b : Date) : Bool :=
  decide (a.year < b.year) ||
    (decide (a.year = b.year) &&
      (decide (a.month < b.month) ||
        (decide (a.month = b.month) && decide (a.day < b.day))))

def isLeapYear (y : Nat) : Bool :=
  y % 4 = 0 && (y % 100 ≠ 0 || y % 400 = 0)

def daysInMonth (y m : Nat) : Nat :=
  if m = 2 then (if isLeapYear y then 29 else 28)
  else if m = 4 ∨ m = 6 ∨ m = 9 ∨ m = 11 then 30
  else 31

/-- Days in months 1..m-1 of year `y`. -/
def daysBeforeMonth (y m : Nat) : Nat :=
  ((List.range (m - 1)).map (fun i => daysInMonth y (i + 1))).sum

/-- `date.toordinal()`: day number in the proleptic Gregorian calendar,
with 0001-01-01 being day 1. -/
def Date.toOrdinal (d : Date) : Nat :=
  let y := d.year - 1
  365 * y + y / 4 - y / 100 + y / 400 + daysBeforeMonth d.year d.month + d.day

/-- `date.weekday()`: 0 = Monday, ..., 6 = Sunday. -/
def Date.weekday (d : Date) : Nat := (d.toOrdinal + 6) % 7

/-- The fields of a Python timezone-aware `datetime` that the resolver reads:
`.date()` and `.time()` (`.weekday()` is derived from the date). -/
structure Datetime where
  date : Date
  time : Time
deriving DecidableEq, Repr

def Datetime.weekday (dt : Datetime) : Nat := dt.date.weekday

/-- The external `holidays.country_holidays(country, state)` membership test,
supplied as an oracle: country, optional region, date ↦ is-a-holiday. -/
abbrev HolidayCalendar := String → Option String → Date → Bool

/-- A string-valued Python dict (e.g. the `public_holidays` section),
modelled as an insertion-ordered association list; `.get(k)`. -/
def dictGetStr (d : List (String × String)) (k : String) : Option String :=
  (d.find? (fun p => p.1 = k)).map (fun p => p.2)

/-- `is_public_holiday` from `src/uploader.py`.  Python truthiness:
`not public_holidays` is an emptiness test on the dict, and `not country`
is true both when the key is absent (`None`) and when it is `""`. -/
def is_public_holiday (cal : HolidayCalendar) (public_holidays : List (String × String))
    (current_date : Date) : Bool :=
  if public_holidays.isEmpty then false
  else
    match dictGetStr public_holidays "country" with
    | none => false
    | some country =>
      if country = "" then false
      else cal country (dictGetStr public_holidays "region") current_date

/-- One `{start, end}` entry of a tariff's `times` list (validated shape:
both keys present, `HH:MM` strings). -/
structure Period where
  start : String
  «end» : String
deriving DecidableEq, Repr

/-- One tariff dict as the resolver reads it: `price`, `times`,
optional `start_date` / `end_date` (absent key = `none`), optional
`weekdays_only`.  Prices are modelled as rationals; `float(...)` of a
configuration number is the identity here. -/
structure Tariff where
  price : ℚ
  times : List Period
  start_date : Option Date
  end_date : Option Date
  weekdays_only : Option Bool
deriving DecidableEq, Repr

/-- An insertion-ordered tariff table (Python dict of name ↦ tariff). -/
abbrev TariffTable := List (String × Tariff)

/-- Python `d.get(k)` on a tariff table. -/
def dictGet (d : TariffTable) (k : String) : Option Tariff :=
  (d.find? (fun p => p.1 = k)).map (fun p => p.2)

/-- Python `d.pop(k, None)`: the popped value and the dict that remains
(insertion order of the other entries preserved). -/
def dictPop (k : String) (d : TariffTable) : Option Tariff × TariffTable :=
  (dictGet d k, d.filter (fun p => p.1 ≠ k))

/-- The `any(is_time_in_period(...) for period in periods)` guard of the
resolver loop: does the current clock time fall in any of the tariff's
periods?  (`tariff.get("times", [])` is `tariff.times` here.) -/
def tariffMatchesTime (current_time : Time) (tariff : Tariff) : Bool :=
  tariff.times.any (fun period => is_time_in_period current_time period.start period.«end»)

/-- The body of the resolver loop for a single tariff: `some price` when the
tariff wins, `none` when the loop falls through to the next tariff.
Mirrors lines 93-116 of `src/uploader.py`.  In the final date-range test the
Python code subscripts `tariff["start_date"]` / `tariff["end_date"]`; on the
validated domain both are present whenever this branch runs (the branch
condition is that not both are absent), so `getD` only fills a default where
Python would raise `KeyError` on input the schema validation rejects. -/
def tariffDecision (cal : HolidayCalendar) (public_holidays : List (String × String))
    (current_datetime : Datetime) (tariff : Tariff) : Option ℚ :=
  if tariffMatchesTime current_datetime.time tariff then
    if tariff.start_date.isNone && tariff.end_date.isNone then
      some tariff.price
    else
      let weekdays_only := tariff.weekdays_only.getD false
      let is_weekday := decide (current_datetime.weekday < 5)
      let is_holiday := is_public_holiday cal public_holidays current_datetime.date
      if !is_holiday && ((weekdays_only && is_weekday) || !weekdays_only) then
        if (tariff.start_date.getD ⟨1, 1, 1⟩).le current_datetime.date &&
            current_datetime.date.le (tariff.end_date.getD ⟨1, 1, 1⟩) then
          some tariff.price
        else none
      else none
  else none

/-- The `for _, tariff in tariff_config_copy.items()` loop with its early
`return`s: the first tariff whose `tariffDecision` is `some` wins. -/
def firstWin (cal : HolidayCalendar) (public_holidays : List (String × String))
    (current_datetime : Datetime) : TariffTable → Option ℚ
  | [] => none
  | (_, tariff) :: rest =>
    match tariffDecision cal public_holidays current_datetime tariff with
    | some price => some price
    | none => firstWin cal public_holidays current_datetime rest

/-- `get_current_tariff` from `src/uploader.py`: copy the table, pop the
`offpeak` fallback from the copy, walk the remaining tariffs in insertion
order, and fall back to the offpeak price (or `0.0`) when nothing wins. -/
def get_current_tariff (cal : HolidayCalendar) (tariff_config : TariffTable)
    (public_holidays : List (String × String)) (current_datetime : Datetime) : ℚ :=
  let tariff_config_copy := tariff_config
  let popped := dictPop "offpeak" tariff_config_copy
  let offpeak := popped.1
  let remaining := popped.2
  match firstWin cal public_holidays current_datetime remaining with
  | some price => price
  | none =>
    match offpeak with
    | some tariff => tariff.price
    | none => 0

/-- `get_current_tariff` with the caller's dictionary threaded explicitly:
`tariff_config.copy()` duplicates the dict and `pop` acts only on the copy,
so the second component — the dictionary the caller observes after the
call — is the input table itself. -/
def get_current_tariff_st (cal : HolidayCalendar) (tariff_config : TariffTable)
    (public_holidays : List (String × String)) (current_datetime : Datetime) :
    ℚ × TariffTable :=
  let tariff_config_copy := tariff_config
  let popped := dictPop "offpeak" tariff_config_copy
  let price :=
    match firstWin cal public_holidays current_datetime popped.2 with
    | some p => p
    | none =>
      match popped.1 with
      | some tariff => tariff.price
      | none => 0
  (price, tariff_config)

/-- A `start_date` / `end_date` configuration value: the validator accepts
either an ISO date string or an already-parsed `date` object. -/
inductive DateLike
  | str (s : String)
  | obj (d : Date)
deriving DecidableEq, Repr

/-- A raw `{start, end}` time-period dict before validation: either key may
be absent. -/
structure RawPeriod where
  start : Option String
  «end» : Option String
deriving DecidableEq, Repr

/-- A raw tariff dict as `_validate_single_tariff` receives it.  Values are
modelled already typed (the Python checks that reject wrongly-typed values —
non-number price, non-list times, non-bool `weekdays_only` — are outside
this model, which covers the presence and content checks). -/
structure RawTariff where
  price : Option ℚ
  times : Option (List RawPeriod)
  start_date : Option DateLike
  end_date : Option DateLike
  weekdays_only : Option Bool
deriving DecidableEq, Repr

/-- `date.fromisoformat` restricted to the canonical `YYYY-MM-DD` shape:
three dash-separated decimal fields naming a valid proleptic-Gregorian date
in Python's year range. -/
def date_fromisoformat (s : String) : Option Date :=
  match splitOnChar '-' s.data with
  | [ys, ms, ds] =>
    if ys.length = 4 && ms.length = 2 && ds.length = 2 then
      match natFromChars? ys, natFromChars? ms, natFromChars? ds with
      | some y, some m, some d =>
        if 1 ≤ y && y ≤ 9999 && 1 ≤ m && m ≤ 12 && 1 ≤ d && d ≤ daysInMonth y m then
          some ⟨y, m, d⟩
        else none
      | _, _, _ => none
    else none
  | _ => none

/-- Coerce a configuration date value to a `Date` the way the validator
does: strings go through `date.fromisoformat`, `date` objects pass through. -/
def coerceDate (x : DateLike) : Option Date :=
  match x with
  | .str s => date_fromisoformat s
  | .obj d => some d

/-- `_validate_time_format`: `HH:MM`, hour 00-23, minute 00-59.  Python
parses the fields with `int(...)`, so a negative component parses and is
then rejected by the range check. -/
def validate_time_format (time_str : String) : Bool :=
  match splitOnChar ':' time_str.data with
  | [hour, minute] =>
    match intFromChars? hour, intFromChars? minute with
    | some hour_int, some minute_int =>
      decide (0 ≤ hour_int) && decide (hour_int ≤ 23) &&
        decide (0 ≤ minute_int) && decide (minute_int ≤ 59)
    | _, _ => false
  | _ => false

/-- `_validate_time_period`: both `start` and `end` present, then both in
valid `HH:MM` format. -/
def validate_time_period (p : RawPeriod) : Except String Unit :=
  match p.start with
  | none => .error "time period must have start field"
  | some start_str =>
    match p.«end» with
    | none => .error "time period must have end field"
    | some end_str =>
      if validate_time_format start_str then
        if validate_time_format end_str then .ok ()
        else .error "time period end has invalid time format"
      else .error "time period start has invalid time format"

/-- The `for i, time_period in enumerate(times)` loop of
`_validate_single_tariff`: first invalid period raises. -/
def validateAllPeriods : List RawPeriod → Except String Unit
  | [] => .ok ()
  | p :: rest =>
    match validate_time_period p with
    | .ok _ => validateAllPeriods rest
    | .error e => .error e

/-- `_validate_single_tariff` from `src/config_schema.py`: price present and
non-negative, times present with every period valid, seasonal dates
both-or-neither with valid values and `start_date < end_date`.
(`weekdays_only`, when present, is typed `Bool` in this model, so its
type check always passes.) -/
def validate_single_tariff (t : RawTariff) : Except String Unit :=
  match t.price with
  | none => .error "tariff must have a price field"
  | some price =>
    if price < 0 then .error "tariff price cannot be negative"
    else
      match t.times with
      | none => .error "tariff must have a times field"
      | some times =>
        match validateAllPeriods times with
        | .error e => .error e
        | .ok _ =>
          match t.start_date, t.end_date with
          | none, none => .ok ()
          | some _, none => .error "seasonal tariff must have both start_date and end_date"
          | none, some _ => .error "seasonal tariff must have both start_date and end_date"
          | some sd, some ed =>
            match coerceDate sd with
            | none => .error "start_date has invalid format"
            | some start_date =>
              match coerceDate ed with
              | none => .error "end_date has invalid format"
              | some end_date =>
                if end_date.le start_date then
                  .error "start_date must be before end_date"
                else .ok ()

/-- Did validation raise? -/
def isErr (e : Except String Unit) : Bool :=
  match e with
  | .error _ => true
  | .ok _ => false

/-- A holiday calendar that never reports a holiday. -/
def calNone : HolidayCalendar := fun _ _ _ => false

/-- A holiday calendar that reports every date as a holiday. -/
def calAll : HolidayCalendar := fun _ _ _ => true

/-- The precedence example table of the spec: tariff `A` (11:00-14:00,
price 10) declared before the overlapping tariff `B` (07:00-22:00,
price 40), with fallback `offpeak` (price 30). -/
def tableAB : TariffTable :=
  [("A", ⟨10, [⟨"11:00", "14:00"⟩], none, none, none⟩),
   ("B", ⟨40, [⟨"07:00", "22:00"⟩], none, none, none⟩),
   ("offpeak", ⟨30, [], none, none, none⟩)]

theorem Time.le_iff_toMinutes {a b : Time} (ha : a.minute < 60) (hb : b.minute < 60) :
    Time.le a b = true ↔ a.toMinutes ≤ b.toMinutes := by
  cases a with
  | mk ah am =>
    cases b with
    | mk bh bm =>
      simp only [Time.le, Time.toMinutes, Bool.or_eq_true, Bool.and_eq_true,
        decide_eq_true_eq] at *
      omega

theorem Time.le_antisymm {a b : Time} (h1 : Time.le a b = true)
    (h2 : Time.le b a = true) : a = b := by
  cases a with
  | mk ah am =>
    cases b with
    | mk bh bm =>
      simp only [Time.le, Bool.or_eq_true, Bool.and_eq_true, decide_eq_true_eq] at h1 h2
      simp only [Time.mk.injEq]
      omega

theorem Time.le_refl (a : Time) : Time.le a a = true := by
  simp [Time.le]

theorem Date.not_lt_iff_le {a b : Date} : Date.lt a b = false ↔ Date.le b a = true := by
  cases a with
  | mk y1 m1 d1 =>
    cases b with
    | mk y2 m2 d2 =>
      simp only [Date.lt, Date.le, Bool.or_eq_false_iff, Bool.and_eq_false_iff,
        Bool.or_eq_true, Bool.and_eq_true, decide_eq_false_iff_not, decide_eq_true_eq]
      omega

theorem Date.lt_iff_not_le {a b : Date} : Date.lt a b = true ↔ Date.le b a = false := by
  cases hlt : Date.lt a b with
  | false => simp [Date.not_lt_iff_le.mp hlt]
  | true =>
    simp only [true_iff]
    cases hle : Date.le b a with
    | false => rfl
    | true =>
      exfalso
      have := Date.not_lt_iff_le.mpr hle
      rw [hlt] at this
      simp at this

/-- A tariff whose loop body returns `none` can be dropped from the
iteration without changing the result of the loop. -/
theorem firstWin_skip (cal : HolidayCalendar) (hq : List (String × String))
    (dt : Datetime) (n : String) (t : Tariff)
    (h : tariffDecision cal hq dt t = none) (pre post : TariffTable) :
    firstWin cal hq dt (pre ++ (n, t) :: post) = firstWin cal hq dt (pre ++ post) := by
  induction pre with
  | nil => simp [firstWin, h]
  | cons e pre ih =>
    obtain ⟨m, u⟩ := e
    cases hdec : tariffDecision cal hq dt u with
    | some p => simp [firstWin, hdec]
    | none => simp [firstWin, hdec, ih]

theorem find?_skip {α : Type} (p : α → Bool) (a : α) (h : p a = false)
    (pre post : List α) :
    (pre ++ a :: post).find? p = (pre ++ post).find? p := by
  induction pre with
  | nil => simp [List.find?, h]
  | cons e pre ih =>
    cases he : p e with
    | true => simp [List.find?, he]
    | false => simp [List.find?, he, ih]

/-- An entry whose loop body returns `none` (and which is not the popped
`offpeak` fallback) can be dropped from the table without changing the
resolved price. -/
theorem resolve_skip (cal : HolidayCalendar) (hq : List (String × String))
    (dt : Datetime) (n : String) (t : Tariff) (hn : ¬ (n = "offpeak"))
    (h : tariffDecision cal hq dt t = none) (pre post : TariffTable) :
    get_current_tariff cal (pre ++ (n, t) :: post) hq dt
      = get_current_tariff cal (pre ++ post) hq dt := by
  simp only [get_current_tariff, dictPop, dictGet]
  have h1 : (pre ++ (n, t) :: post).find? (fun p => p.1 = "offpeak")
      = (pre ++ post).find? (fun p => p.1 = "offpeak") := by
    apply find?_skip
    simp [hn]
  have h2 : (pre ++ (n, t) :: post).filter (fun p => p.1 ≠ "offpeak")
      = pre.filter (fun p => p.1 ≠ "offpeak")
        ++ (n, t) :: post.filter (fun p => p.1 ≠ "offpeak") := by
    simp [List.filter_append, List.filter_cons, hn]
  rw [h1, h2, List.filter_append, firstWin_skip cal hq dt n t h]

theorem firstWin_eq_none (cal : HolidayCalendar) (hq : List (String × String))
    (dt : Datetime) (l : TariffTable)
    (h : ∀ e ∈ l, tariffDecision cal hq dt e.2 = none) :
    firstWin cal hq dt l = none := by
  induction l with
  | nil => rfl
  | cons e rest ih =>
    obtain ⟨m, u⟩ := e
    have hu := h (m, u) (by simp)
    simp only at hu
    simp [firstWin, hu, ih (fun e he => h e (by simp [he]))]

theorem firstWin_wins (cal : HolidayCalendar) (hq : List (String × String))
    (dt : Datetime) (l1 : TariffTable)
    (h1 : ∀ e ∈ l1, tariffDecision cal hq dt e.2 = none)
    (n : String) (t : Tariff) (p : ℚ)
    (hw : tariffDecision cal hq dt t = some p) (l2 : TariffTable) :
    firstWin cal hq dt (l1 ++ (n, t) :: l2) = some p := by
  induction l1 with
  | nil => simp [firstWin, hw]
  | cons e rest ih =>
    obtain ⟨m, u⟩ := e
    have hu := h1 (m, u) (by simp)
    simp only at hu
    simp [firstWin, hu, ih (fun e he => h1 e (by simp [he]))]

theorem firstWin_mem (cal : HolidayCalendar) (hq : List (String × String))
    (dt : Datetime) (l : TariffTable) (p : ℚ)
    (h : firstWin cal hq dt l = some p) :
    ∃ e ∈ l, tariffDecision cal hq dt e.2 = some p := by
  induction l with
  | nil => simp [firstWin] at h
  | cons e rest ih =>
    obtain ⟨m, u⟩ := e
    simp only [firstWin] at h
    cases hdec : tariffDecision cal hq dt u with
    | some q =>
      rw [hdec] at h
      refine ⟨(m, u), by simp, ?_⟩
      simpa [hdec] using h
    | none =>
      rw [hdec] at h
      obtain ⟨e, he, hd⟩ := ih h
      exact ⟨e, by simp [he], hd⟩

/-- The loop body only ever returns the tariff's own price. -/
theorem tariffDecision_price (cal : HolidayCalendar) (hq : List (String × String))
    (dt : Datetime) (t : Tariff) (p : ℚ)
    (h : tariffDecision cal hq dt t = some p) : p = t.price := by
  unfold tariffDecision at h
  repeat' split at h
  all_goals simp_all

/-- C1: for minute-resolution clock times, `is_time_in_period` on a window
with `start ≤ end` is true exactly on the closed interval `[start, end]`;
on a window with `start > end` (crossing midnight) it is true exactly when
`t ≥ start` or `t ≤ end`; and a degenerate window with `start = end`
matches only that exact instant. -/
theorem c1_time_window_contains (t st en : Time) (s e : String)
    (ht : t.valid) (hs : st.valid) (he : en.valid)
    (hps : parseTime s = st) (hpe : parseTime e = en) :
    (st.toMinutes ≤ en.toMinutes →
      (is_time_in_period t s e = true ↔
        st.toMinutes ≤ t.toMinutes ∧ t.toMinutes ≤ en.toMinutes)) ∧
    (en.toMinutes < st.toMinutes →
      (is_time_in_period t s e = true ↔
        st.toMinutes ≤ t.toMinutes ∨ t.toMinutes ≤ en.toMinutes)) ∧
    (st = en → (is_time_in_period t s e = true ↔ t = st)) := by
  obtain ⟨-, ht2⟩ := ht
  obtain ⟨-, hs2⟩ := hs
  obtain ⟨-, he2⟩ := he
  simp only [is_time_in_period]
  rw [hps, hpe]
  refine ⟨?_, ?_, ?_⟩
  · intro hle
    rw [if_pos ((Time.le_iff_toMinutes hs2 he2).mpr hle)]
    simp only [Bool.and_eq_true, Time.le_iff_toMinutes hs2 ht2,
      Time.le_iff_toMinutes ht2 he2]
  · intro hlt
    have hnot : ¬ (Time.le st en = true) := by
      rw [Time.le_iff_toMinutes hs2 he2]
      omega
    rw [if_neg hnot]
    simp only [Bool.or_eq_true, Time.le_iff_toMinutes hs2 ht2,
      Time.le_iff_toMinutes ht2 he2]
  · intro heq
    subst heq
    rw [if_pos (Time.le_refl st)]
    constructor
    · intro h
      rw [Bool.and_eq_true] at h
      exact Time.le_antisymm h.2 h.1
    · intro h
      subst h
      simp [Time.le_refl]

/-- Concrete check of C1: 23:30 lies in the overnight window 22:00-06:00. -/
theorem c1_time_window_contains_witness :
    is_time_in_period ⟨23, 30⟩ "22:00" "06:00" = true := by
  have h := c1_time_window_contains ⟨23, 30⟩ ⟨22, 0⟩ ⟨6, 0⟩ "22:00" "06:00"
    (by decide) (by decide) (by decide) (by decide) (by decide)
  exact (h.2.1 (by decide)).mpr (Or.inl (by decide))

/-- C2: the resolver walks the non-fallback tariffs in insertion order and
the first tariff whose loop body succeeds determines the price, whatever
tariffs follow it; in particular, on the spec's example table, resolution at
12:00 yields the earlier-declared tariff A's price 10, not overlapping
tariff B's 40. -/
theorem c2_insertion_order_first_match (cal : HolidayCalendar)
    (hq : List (String × String)) (dt : Datetime)
    (pre post : TariffTable) (n : String) (t : Tariff) (p : ℚ)
    (hn : ¬ (n = "offpeak"))
    (hpre : ∀ e ∈ pre, ¬ (e.1 = "offpeak") → tariffDecision cal hq dt e.2 = none)
    (hwin : tariffDecision cal hq dt t = some p) :
    get_current_tariff cal (pre ++ (n, t) :: post) hq dt = p ∧
    (∀ (cal' : HolidayCalendar) (hq' : List (String × String)) (d : Date),
      get_current_tariff cal' tableAB hq' ⟨d, ⟨12, 0⟩⟩ = 10) := by
  constructor
  · simp only [get_current_tariff, dictPop, dictGet]
    have h2 : (pre ++ (n, t) :: post).filter (fun p => p.1 ≠ "offpeak")
        = pre.filter (fun p => p.1 ≠ "offpeak")
          ++ (n, t) :: post.filter (fun p => p.1 ≠ "offpeak") := by
      simp [List.filter_append, List.filter_cons, hn]
    have hall : ∀ e ∈ pre.filter (fun p => p.1 ≠ "offpeak"),
        tariffDecision cal hq dt e.2 = none := by
      intro e he
      rw [List.mem_filter] at he
      exact hpre e he.1 (by simpa using he.2)
    rw [h2, firstWin_wins cal hq dt _ hall n t p hwin]
  · intro cal' hq' d
    rfl

/-- Concrete check of C2: on the example table, 12:00 resolves to 10. -/
theorem c2_insertion_order_first_match_witness :
    get_current_tariff calNone tableAB [] ⟨⟨2024, 6, 15⟩, ⟨12, 0⟩⟩ = 10 := by
  have h := c2_insertion_order_first_match calNone [] ⟨⟨2024, 6, 15⟩, ⟨12, 0⟩⟩
    [] [("B", ⟨40, [⟨"07:00", "22:00"⟩], none, none, none⟩),
        ("offpeak", ⟨30, [], none, none, none⟩)]
    "A" ⟨10, [⟨"11:00", "14:00"⟩], none, none, none⟩ 10
    (by decide) (by simp) (by decide)
  exact h.1

/-- C5: resolution never mutates the caller's tariff table and is
deterministic: the table threaded through `get_current_tariff_st` comes
back unchanged, its price agrees with `get_current_tariff`, and a second
call on the returned table yields the identical result. -/
theorem c5_resolve_pure (cal : HolidayCalendar) (tariff_config : TariffTable)
    (hq : List (String × String)) (dt : Datetime) :
    (get_current_tariff_st cal tariff_config hq dt).2 = tariff_config ∧
    (get_current_tariff_st cal tariff_config hq dt).1
      = get_current_tariff cal tariff_config hq dt ∧
    get_current_tariff_st cal (get_current_tariff_st cal tariff_config hq dt).2 hq dt
      = get_current_tariff_st cal tariff_config hq dt :=
  ⟨rfl, rfl, rfl⟩

/-- C6: the holiday lookup returns false — it never fails — whenever the
`country` field of the holiday query is absent or empty, in particular on
an empty query, whatever the external calendar would answer. -/
theorem c6_holiday_needs_country (cal : HolidayCalendar) (d : Date) :
    is_public_holiday cal [] d = false ∧
    (∀ hq, dictGetStr hq "country" = none → is_public_holiday cal hq d = false) ∧
    (∀ hq, dictGetStr hq "country" = some "" → is_public_holiday cal hq d = false) := by
  refine ⟨rfl, ?_, ?_⟩
  · intro hq h
    simp [is_public_holiday, h]
  · intro hq h
    simp [is_public_holiday, h]

/-- Concrete check of C6: a query with a region but no country is never a
holiday, even under a calendar that reports every date as one. -/
theorem c6_holiday_needs_country_witness :
    is_public_holiday calAll [("region", "NSW")] ⟨2024, 1, 1⟩ = false :=
  (c6_holiday_needs_country calAll ⟨2024, 1, 1⟩).2.1 [("region", "NSW")] rfl

/-- C7: a tariff with an empty `times` list never matches and never wins —
it can be removed from the table without affecting resolution — and any
tariff that wins has the current time inside at least one of its periods. -/
theorem c7_empty_periods_never_win (cal : HolidayCalendar)
    (hq : List (String × String)) (dt : Datetime) :
    (∀ t : Tariff, t.times = [] → tariffDecision cal hq dt t = none) ∧
    (∀ (t : Tariff) (p : ℚ), tariffDecision cal hq dt t = some p →
      tariffMatchesTime dt.time t = true) ∧
    (∀ (pre post : TariffTable) (n : String) (t : Tariff),
      t.times = [] → ¬ (n = "offpeak") →
      get_current_tariff cal (pre ++ (n, t) :: post) hq dt
        = get_current_tariff cal (pre ++ post) hq dt) := by
  have hempty : ∀ t : Tariff, t.times = [] → tariffDecision cal hq dt t = none := by
    intro t h
    simp [tariffDecision, tariffMatchesTime, h]
  refine ⟨hempty, ?_, ?_⟩
  · intro t p h
    cases hm : tariffMatchesTime dt.time t with
    | true => rfl
    | false => simp [tariffDecision, hm] at h
  · intro pre post n t ht hn
    exact resolve_skip cal hq dt n t hn (hempty t ht) pre post

/-- Concrete check of C7: a priced tariff with no periods decides to
nothing. -/
theorem c7_empty_periods_never_win_witness :
    tariffDecision calNone [] ⟨⟨2024, 6, 15⟩, ⟨12, 0⟩⟩
      ⟨50, [], none, none, none⟩ = none :=
  (c7_empty_periods_never_win calNone [] ⟨⟨2024, 6, 15⟩, ⟨12, 0⟩⟩).1
    ⟨50, [], none, none, none⟩ rfl

/-- C9: a tariff without a seasonal range wins immediately on a time match,
for every holiday calendar, holiday query, weekday and `weekdays_only`
value; its loop decision depends only on the clock time. -/
theorem c9_nonseasonal_ignores_calendar (cal : HolidayCalendar)
    (hq : List (String × String)) (dt : Datetime) (t : Tariff)
    (h1 : t.start_date = none) (h2 : t.end_date = none) :
    (tariffMatchesTime dt.time t = true → tariffDecision cal hq dt t = some t.price) ∧
    (∀ (cal' : HolidayCalendar) (hq' : List (String × String)) (dt' : Datetime),
      dt'.time = dt.time → tariffDecision cal' hq' dt' t = tariffDecision cal hq dt t) := by
  constructor
  · intro hm
    simp [tariffDecision, hm, h1, h2]
  · intro cal' hq' dt' ht
    simp [tariffDecision, h1, h2, ht]

/-- Concrete check of C9: a non-seasonal tariff with `weekdays_only := true`
wins at a matching time on a Saturday that the calendar calls a holiday. -/
theorem c9_nonseasonal_ignores_calendar_witness :
    tariffDecision calAll [("country", "AU")] ⟨⟨2024, 1, 6⟩, ⟨12, 0⟩⟩
      ⟨60, [⟨"07:00", "21:00"⟩], none, none, some true⟩ = some 60 :=
  (c9_nonseasonal_ignores_calendar calAll [("country", "AU")] ⟨⟨2024, 1, 6⟩, ⟨12, 0⟩⟩
    ⟨60, [⟨"07:00", "21:00"⟩], none, none, some true⟩ rfl rfl).1 (by decide)

/-- C4: when no non-fallback tariff wins, resolution returns the `offpeak`
fallback's price when that entry is present and 0 when it is not; it never
fails either way. -/
theorem c4_fallback_price (cal : HolidayCalendar) (hq : List (String × String))
    (dt : Datetime) (table : TariffTable)
    (h : ∀ e ∈ table, ¬ (e.1 = "offpeak") → tariffDecision cal hq dt e.2 = none) :
    (∀ t_off : Tariff, dictGet table "offpeak" = some t_off →
      get_current_tariff cal table hq dt = t_off.price) ∧
    (dictGet table "offpeak" = none → get_current_tariff cal table hq dt = 0) := by
  have hfw : firstWin cal hq dt (table.filter (fun p => p.1 ≠ "offpeak")) = none := by
    apply firstWin_eq_none
    intro e he
    rw [List.mem_filter] at he
    exact h e he.1 (by simpa using he.2)
  constructor
  · intro t_off hoff
    simp only [get_current_tariff, dictPop]
    rw [hfw, hoff]
  · intro hoff
    simp only [get_current_tariff, dictPop]
    rw [hfw, hoff]

/-- Concrete check of C4: with only a non-matching peak tariff, a table
with an offpeak entry resolves to 30 and one without resolves to 0. -/
theorem c4_fallback_price_witness :
    get_current_tariff calNone
      [("peak", ⟨50, [⟨"14:00", "20:00"⟩], none, none, none⟩),
       ("offpeak", ⟨30, [], none, none, none⟩)] [] ⟨⟨2024, 6, 15⟩, ⟨6, 0⟩⟩ = 30 ∧
    get_current_tariff calNone
      [("peak", ⟨50, [⟨"14:00", "20:00"⟩], none, none, none⟩)] []
      ⟨⟨2024, 6, 15⟩, ⟨6, 0⟩⟩ = 0 := by
  constructor
  · exact (c4_fallback_price calNone [] ⟨⟨2024, 6, 15⟩, ⟨6, 0⟩⟩ _ (by decide)).1
      ⟨30, [], none, none, none⟩ (by decide)
  · exact (c4_fallback_price calNone [] ⟨⟨2024, 6, 15⟩, ⟨6, 0⟩⟩ _ (by decide)).2
      (by decide)

/-- C10: on a table whose prices are all non-negative — the invariant the
configuration validation establishes — resolution returns a non-negative
price for every calendar, query and timestamp. -/
theorem c10_price_nonneg (cal : HolidayCalendar) (hq : List (String × String))
    (dt : Datetime) (table : TariffTable)
    (h : ∀ e ∈ table, 0 ≤ e.2.price) :
    0 ≤ get_current_tariff cal table hq dt := by
  simp only [get_current_tariff, dictPop, dictGet]
  cases hfw : firstWin cal hq dt (table.filter (fun p => p.1 ≠ "offpeak")) with
  | some p =>
    obtain ⟨e, he, hd⟩ := firstWin_mem cal hq dt _ p hfw
    rw [List.mem_filter] at he
    have hp := tariffDecision_price cal hq dt e.2 p hd
    rw [hp]
    exact h e he.1
  | none =>
    cases hfind : table.find? (fun p => p.1 = "offpeak") with
    | some e =>
      have hmem := List.mem_of_find?_eq_some hfind
      exact h e hmem
    | none =>
      exact le_refl 0

/-- Concrete check of C10: the example table resolves to a non-negative
price. -/
theorem c10_price_nonneg_witness :
    0 ≤ get_current_tariff calNone tableAB [] ⟨⟨2024, 6, 15⟩, ⟨12, 0⟩⟩ :=
  c10_price_nonneg calNone [] ⟨⟨2024, 6, 15⟩, ⟨12, 0⟩⟩ tableAB (by decide)

/-- C3: a time-matching tariff carrying a seasonal range wins exactly when
`now`'s date is not a holiday, the weekday restriction is off or `now` is a
Monday-Friday, and `now`'s date lies inside the inclusive seasonal range;
when any of these fails the tariff alone is skipped and resolution
continues as if the entry were absent. -/
theorem c3_seasonal_gating (cal : HolidayCalendar) (hq : List (String × String))
    (dt : Datetime) (t : Tariff) (sd ed : Date)
    (hmatch : tariffMatchesTime dt.time t = true)
    (hsd : t.start_date = some sd) (hed : t.end_date = some ed) :
    (tariffDecision cal hq dt t = some t.price ↔
      (is_public_holiday cal hq dt.date = false ∧
       (t.weekdays_only.getD false = false ∨ dt.weekday < 5) ∧
       (Date.le sd dt.date = true ∧ Date.le dt.date ed = true))) ∧
    (tariffDecision cal hq dt t = none ∨ tariffDecision cal hq dt t = some t.price) ∧
    (tariffDecision cal hq dt t = none →
      ∀ (pre post : TariffTable) (n : String), ¬ (n = "offpeak") →
        get_current_tariff cal (pre ++ (n, t) :: post) hq dt
          = get_current_tariff cal (pre ++ post) hq dt) := by
  refine ⟨?_, ?_, ?_⟩
  · cases hh : is_public_holiday cal hq dt.date <;>
      cases hw : t.weekdays_only.getD false <;>
      cases hwk : decide (dt.weekday < 5) <;>
      cases hd1 : Date.le sd dt.date <;>
      cases hd2 : Date.le dt.date ed <;>
      simp_all [tariffDecision, hmatch, hsd, hed]
  · cases hdec : tariffDecision cal hq dt t with
    | none => exact Or.inl rfl
    | some q =>
      have hp := tariffDecision_price cal hq dt t q hdec
      exact Or.inr (by rw [hp])
  · intro h pre post n hn
    exact resolve_skip cal hq dt n t hn h pre post

/-- Concrete check of C3: the spec's seasonal tariff (2024-01-01 to
2024-03-31, window 14:00-20:00, price 70) wins at 2024-01-01 15:00. -/
theorem c3_seasonal_gating_witness :
    tariffDecision calNone [] ⟨⟨2024, 1, 1⟩, ⟨15, 0⟩⟩
      ⟨70, [⟨"14:00", "20:00"⟩], some ⟨2024, 1, 1⟩, some ⟨2024, 3, 31⟩, none⟩
      = some 70 :=
  ((c3_seasonal_gating calNone [] ⟨⟨2024, 1, 1⟩, ⟨15, 0⟩⟩
      ⟨70, [⟨"14:00", "20:00"⟩], some ⟨2024, 1, 1⟩, some ⟨2024, 3, 31⟩, none⟩
      ⟨2024, 1, 1⟩ ⟨2024, 3, 31⟩ (by decide) rfl rfl).1).mpr
    ⟨rfl, Or.inl rfl, by decide, by decide⟩

/-- C8: the configuration validator rejects a tariff carrying exactly one
of `start_date` / `end_date`, rejects one whose parsed `start_date` is not
strictly before its parsed `end_date`, and accepts a tariff whose other
fields are valid and whose two dates parse with `start_date` strictly
before `end_date`. -/
theorem c8_seasonal_validation :
    (∀ t : RawTariff,
      ((t.start_date.isSome = true ∧ t.end_date = none) ∨
       (t.start_date = none ∧ t.end_date.isSome = true)) →
      isErr (validate_single_tariff t) = true) ∧
    (∀ (t : RawTariff) (sd ed : DateLike) (dsd ded : Date),
      t.start_date = some sd → t.end_date = some ed →
      coerceDate sd = some dsd → coerceDate ed = some ded →
      Date.lt dsd ded = false →
      isErr (validate_single_tariff t) = true) ∧
    (∀ (t : RawTariff) (p : ℚ) (ts : List RawPeriod) (sd ed : DateLike)
        (dsd ded : Date),
      t.price = some p → ¬ (p < 0) → t.times = some ts →
      validateAllPeriods ts = Except.ok () →
      t.start_date = some sd → t.end_date = some ed →
      coerceDate sd = some dsd → coerceDate ed = some ded →
      Date.lt dsd ded = true →
      validate_single_tariff t = Except.ok ()) := by
  refine ⟨?_, ?_, ?_⟩
  · intro t h
    unfold validate_single_tariff
    repeat' split
    all_goals simp_all [isErr]
  · intro t sd ed dsd ded hsd hed hcs hce hlt
    unfold validate_single_tariff
    repeat' split
    all_goals simp_all [isErr, Date.not_lt_iff_le]
  · intro t p ts sd ed dsd ded hpr hnneg htm hval hsd hed hcs hce hlt
    have hle : Date.le ded dsd = false := Date.lt_iff_not_le.mp hlt
    simp only [validate_single_tariff, hpr, htm, hsd, hed]
    rw [if_neg hnneg]
    simp only [hval, hcs, hce, hle]
    simp

/-- Concrete checks of C8: a tariff with only a `start_date` is rejected;
one with both dates in ISO form and `start_date < end_date` is accepted. -/
theorem c8_seasonal_validation_witness :
    isErr (validate_single_tariff
      ⟨some 10, some [], some (.str "2024-01-01"), none, none⟩) = true ∧
    validate_single_tariff
      ⟨some 10, some [⟨some "07:00", some "21:00"⟩],
       some (.str "2024-01-01"), some (.str "2024-03-31"), none⟩
      = Except.ok () := by
  constructor
  · exact c8_seasonal_validation.1
      ⟨some 10, some [], some (.str "2024-01-01"), none, none⟩ (Or.inl ⟨rfl, rfl⟩)
  · exact c8_seasonal_validation.2.2
      ⟨some 10, some [⟨some "07:00", some "21:00"⟩],
       some (.str "2024-01-01"), some (.str "2024-03-31"), none⟩
      10 [⟨some "07:00", some "21:00"⟩] (.str "2024-01-01") (.str "2024-03-31")
      ⟨2024, 1, 1⟩ ⟨2024, 3, 31⟩
      rfl (by norm_num) rfl rfl rfl rfl rfl rfl (by decide)

end PVOutputTariff
